import Mathlib

/-!
Verification of the binary-outcome prediction-market engine (`solana_predict`).
The repository ships the engine's TypeScript test-suites and an admin script;
the Anchor/Rust program itself is not in the repository, so the instruction
handlers below are modelled from the specification, while the pure pricing
helpers (`cpmmPrice`, the ceiling fee, the expected-share formulas) are
embedded from the test code that computes them.
-/

namespace SolanaPredict

/-- Resolved outcome of a market (the `resolved_outcome` variant minus `None`,
which is modelled with `Option`). -/
inductive Outcome
  | Yes
  | No
  | Invalid
deriving DecidableEq, Repr

/-- Lifecycle status of a market. -/
inductive MarketStatus
  | Active
  | Paused
  | Resolved
  | Cancelled
deriving DecidableEq, Repr

/-- Status of a dispute record. -/
inductive DisputeStatus
  | Open
  | Upheld
  | Rejected
deriving DecidableEq, Repr

/-- Side of a bet. -/
inductive Side
  | Yes
  | No
deriving DecidableEq, Repr

/-- Error taxonomy of the engine (spec section 7).  The spec does not name the
errors for a too-small/too-large bet, an over-sized share burn or bad
`createMarket` parameters, so those get dedicated constructors here. -/
inductive Err
  | Unauthorized
  | InvalidSeeds
  | MarketNotCloseable
  | OutstandingPositions
  | SlippageExceeded
  | InvalidPythFeed
  | StaleOracle
  | InsufficientVault
  | InvalidQuote
  | InvalidMarketStatus
  | DisputeNotOpen
  | MarketLocked
  | BetTooSmall
  | BetTooLarge
  | InsufficientShares
  | InvalidParams
deriving DecidableEq, Repr

/-- Modelled from the spec: the `Market` account of the missing Anchor program.
`yes_reserve`/`no_reserve` are the CPMM pool reserves (the tests read them as
`totalYesShares`/`totalNoShares`), `yes_supply`/`no_supply` are the outstanding
outcome-token mint supplies (the settlement denominators), and `vault` is the
collateral vault balance mirrored by `total_collateral`. -/
structure Market where
  status : MarketStatus
  resolved_outcome : Option Outcome
  yes_reserve : Nat
  no_reserve : Nat
  yes_supply : Nat
  no_supply : Nat
  total_collateral : Nat
  vault : Nat
  fee_bps : Nat
  min_bet : Nat
  max_bet : Nat
  start_timestamp : Nat
  lock_timestamp : Nat
  end_timestamp : Nat
deriving DecidableEq, Repr

/-- Modelled from the spec: the per-(market, user) `UserPosition` account. -/
structure UserPosition where
  yes_shares : Nat
  no_shares : Nat
deriving DecidableEq, Repr

/-- Modelled from the spec: the singleton `PlatformConfig`; identities are
abstracted to natural numbers. -/
structure PlatformConfig where
  admin : Nat
  fee_bps : Nat
  dispute_bond : Nat
deriving DecidableEq, Repr

/-- Modelled from the spec: the per-market `DisputeRecord`. -/
structure DisputeRecord where
  disputer : Nat
  status : DisputeStatus
deriving DecidableEq, Repr

/-- Basis-point fee with ceiling rounding, embedded from the integer
computation used in the tests: `(amount * fee_bps + 9999) / 10000`. -/
def feeCeil (amount feeBps : Nat) : Nat :=
  (amount * feeBps + 9999) / 10000

/-- Modelled from the spec: `quoteBuy(reserve_in, reserve_out, amount, feeBps)`
of the missing program.  `fee = ceil(amount * feeBps / 10000)`,
`net = amount - fee`, `k = reserve_in * reserve_out`,
`new_out = reserve_out + net`, `shares_out = reserve_in - k / new_out`
(floor division); degenerate inputs are rejected with `InvalidQuote`. -/
def quoteBuy (reserve_in reserve_out amount feeBps : Nat) :
    Except Err (Nat × Nat) :=
  let fee := feeCeil amount feeBps
  let net := amount - fee
  let k := reserve_in * reserve_out
  let new_out := reserve_out + net
  if reserve_in = 0 ∨ new_out = 0 then .error .InvalidQuote
  else .ok (reserve_in - k / new_out, fee)

/-- Modelled from the spec: `quoteSell(reserve_side, reserve_other, shares_in,
feeBps)` of the missing program.  `new_side = reserve_side + shares_in`,
`new_other = k / new_side` (floor), `raw = reserve_other - new_other`,
`fee = ceil(raw * feeBps / 10000)`, `refund = raw - fee`. -/
def quoteSell (reserve_side reserve_other shares_in feeBps : Nat) :
    Except Err (Nat × Nat) :=
  let k := reserve_side * reserve_other
  let new_side := reserve_side + shares_in
  if new_side = 0 then .error .InvalidQuote
  else
    let raw := reserve_other - k / new_side
    let fee := feeCeil raw feeBps
    .ok (raw - fee, fee)

/-- Reserve of the pool on the bet's own side. -/
def sideReserve (m : Market) : Side → Nat
  | .Yes => m.yes_reserve
  | .No => m.no_reserve

/-- Reserve of the pool on the opposite side. -/
def otherReserve (m : Market) : Side → Nat
  | .Yes => m.no_reserve
  | .No => m.yes_reserve

/-- Shares a position holds on one side. -/
def sideShares (pos : UserPosition) : Side → Nat
  | .Yes => pos.yes_shares
  | .No => pos.no_shares

/-- Outcome-token mint supply on one side. -/
def sideSupply (m : Market) : Side → Nat
  | .Yes => m.yes_supply
  | .No => m.no_supply

/-- Modelled from the spec: `place_bet` of the missing program.  Requires an
`Active` market before its lock time with `amount` within the min/max bet
bounds; quotes the buy on the chosen side (the same-side reserve is drawn down
by the shares minted, the opposite reserve absorbs the net collateral), guards
slippage, mints the shares to the user and to the side's mint supply, moves
`net` into the vault (the fee goes to the treasury, so only `net` backs the
pool) and returns `(market, position, shares_out, fee)`. -/
def placeBet (m : Market) (pos : UserPosition) (side : Side)
    (amount minSharesOut now : Nat) :
    Except Err (Market × UserPosition × Nat × Nat) :=
  if m.status ≠ .Active then .error .InvalidMarketStatus
  else if m.lock_timestamp ≤ now then .error .MarketLocked
  else if amount < m.min_bet then .error .BetTooSmall
  else if m.max_bet ≠ 0 ∧ m.max_bet < amount then .error .BetTooLarge
  else
    match quoteBuy (sideReserve m side) (otherReserve m side) amount m.fee_bps with
    | .error e => .error e
    | .ok (shares_out, fee) =>
      if shares_out < minSharesOut then .error .SlippageExceeded
      else
        let net := amount - fee
        match side with
        | .Yes =>
          .ok ({ m with
                  yes_reserve := m.yes_reserve - shares_out,
                  no_reserve := m.no_reserve + net,
                  yes_supply := m.yes_supply + shares_out,
                  total_collateral := m.total_collateral + net,
                  vault := m.vault + net },
               { pos with yes_shares := pos.yes_shares + shares_out },
               shares_out, fee)
        | .No =>
          .ok ({ m with
                  no_reserve := m.no_reserve - shares_out,
                  yes_reserve := m.yes_reserve + net,
                  no_supply := m.no_supply + shares_out,
                  total_collateral := m.total_collateral + net,
                  vault := m.vault + net },
               { pos with no_shares := pos.no_shares + shares_out },
               shares_out, fee)

/-- Modelled from the spec: `cancel_bet` of the missing program.  Requires an
`Active` market and `shares_to_burn` at most the user's held shares on that
side; performs the `quoteSell` computation, burns the shares from the position
and the mint supply, moves the same-side reserve to `new_side` and the
opposite reserve down to `new_other` along the curve, removes `raw = refund +
fee` from the vault (`refund` to the user, `fee` to the treasury) and returns
`(market, position, refund, fee)`. -/
def cancelBet (m : Market) (pos : UserPosition) (side : Side)
    (shares_to_burn : Nat) :
    Except Err (Market × UserPosition × Nat × Nat) :=
  if m.status ≠ .Active then .error .InvalidMarketStatus
  else if sideShares pos side < shares_to_burn then .error .InsufficientShares
  else
    let new_side := sideReserve m side + shares_to_burn
    if new_side = 0 then .error .InvalidQuote
    else
      let new_other := sideReserve m side * otherReserve m side / new_side
      let raw := otherReserve m side - new_other
      let fee := feeCeil raw m.fee_bps
      let refund := raw - fee
      match side with
      | .Yes =>
        .ok ({ m with
                yes_reserve := new_side,
                no_reserve := new_other,
                yes_supply := m.yes_supply - shares_to_burn,
                total_collateral := m.total_collateral - raw,
                vault := m.vault - raw },
             { pos with yes_shares := pos.yes_shares - shares_to_burn },
             refund, fee)
      | .No =>
        .ok ({ m with
                no_reserve := new_side,
                yes_reserve := new_other,
                no_supply := m.no_supply - shares_to_burn,
                total_collateral := m.total_collateral - raw,
                vault := m.vault - raw },
             { pos with no_shares := pos.no_shares - shares_to_burn },
             refund, fee)

/-- Modelled from the spec: `settle_dispute` of the missing program.  The
admin-identity check is the first guard, before the dispute record is read;
with an `Open` dispute, a `newOutcome` differing from the stored
`resolved_outcome` overwrites it and marks the dispute `Upheld`, otherwise
the dispute is `Rejected` and the outcome is untouched.  The market record's
`status` field is never written, so the market stays `Resolved`.  An error
returns no state, so a failed call mutates nothing. -/
def settleDispute (cfg : PlatformConfig) (caller : Nat) (m : Market)
    (d : DisputeRecord) (newOutcome : Outcome) :
    Except Err (Market × DisputeRecord) :=
  if caller ≠ cfg.admin then .error .Unauthorized
  else if d.status ≠ .Open then .error .DisputeNotOpen
  else if m.resolved_outcome ≠ some newOutcome then
    .ok ({ m with resolved_outcome := some newOutcome },
         { d with status := .Upheld })
  else
    .ok (m, { d with status := .Rejected })

/-- Modelled from the spec: `claim_payout` of the missing program.  Requires a
`Resolved` market.  For a `Yes`/`No` outcome the winning side's holder is paid
`floor(shares_held * total_collateral / side_token_supply)` (the mint supply,
not the pool reserve, is the denominator); for `Invalid` each side's pool is
its reserve fraction `total_collateral * reserve_side / (yes_reserve +
no_reserve)` and a holder receives the floor share of each pool they hold
tokens of.  The claimed shares are burned and the vault and
`total_collateral` are decremented by the payout with a checked subtraction
that fails with `InsufficientVault` instead of underflowing. -/
def claimPayout (m : Market) (pos : UserPosition) :
    Except Err (Market × UserPosition × Nat) :=
  if m.status ≠ .Resolved then .error .InvalidMarketStatus
  else
    match m.resolved_outcome with
    | none => .error .InvalidMarketStatus
    | some .Yes =>
      let payout := pos.yes_shares * m.total_collateral / m.yes_supply
      if m.vault < payout ∨ m.total_collateral < payout then
        .error .InsufficientVault
      else
        .ok ({ m with
                vault := m.vault - payout,
                total_collateral := m.total_collateral - payout,
                yes_supply := m.yes_supply - pos.yes_shares },
             { pos with yes_shares := 0 }, payout)
    | some .No =>
      let payout := pos.no_shares * m.total_collateral / m.no_supply
      if m.vault < payout ∨ m.total_collateral < payout then
        .error .InsufficientVault
      else
        .ok ({ m with
                vault := m.vault - payout,
                total_collateral := m.total_collateral - payout,
                no_supply := m.no_supply - pos.no_shares },
             { pos with no_shares := 0 }, payout)
    | some .Invalid =>
      let pool_total := m.yes_reserve + m.no_reserve
      let yes_pool := m.total_collateral * m.yes_reserve / pool_total
      let no_pool := m.total_collateral * m.no_reserve / pool_total
      let payout := pos.yes_shares * yes_pool / m.yes_supply +
                    pos.no_shares * no_pool / m.no_supply
      if m.vault < payout ∨ m.total_collateral < payout then
        .error .InsufficientVault
      else
        .ok ({ m with
                vault := m.vault - payout,
                total_collateral := m.total_collateral - payout,
                yes_supply := m.yes_supply - pos.yes_shares,
                no_supply := m.no_supply - pos.no_shares },
             { pos with yes_shares := 0, no_shares := 0 }, payout)

/-- Modelled from the spec: `close_market` of the missing program.  Admin-only;
requires a `Resolved` or `Cancelled` status (else `MarketNotCloseable`) and an
exactly-zero vault balance (else `OutstandingPositions`); on success the
market's records are destroyed, so nothing but a unit is returned.  An error
returns no state, so a failed call mutates nothing. -/
def closeMarket (cfg : PlatformConfig) (caller : Nat) (m : Market) :
    Except Err Unit :=
  if caller ≠ cfg.admin then .error .Unauthorized
  else if ¬(m.status = .Resolved ∨ m.status = .Cancelled) then
    .error .MarketNotCloseable
  else if m.vault ≠ 0 then .error .OutstandingPositions
  else .ok ()

/-- Parameters of `createMarket` that the model needs. -/
structure CreateMarketParams where
  start_timestamp : Nat
  lock_timestamp : Nat
  end_timestamp : Nat
  fee_bps : Nat
  min_bet : Nat
  max_bet : Nat
  initial_liquidity : Nat
deriving DecidableEq, Repr

/-- Modelled from the spec: `create_market` of the missing program.  Requires
`lockTimestamp > startTimestamp`, `endTimestamp > lockTimestamp` and a
non-zero `initialLiquidity`; seeds the vault and both reserves with the
initial liquidity and starts the market `Active` with no resolved outcome. -/
def createMarket (p : CreateMarketParams) : Except Err Market :=
  if ¬(p.start_timestamp < p.lock_timestamp) then .error .InvalidParams
  else if ¬(p.lock_timestamp < p.end_timestamp) then .error .InvalidParams
  else if p.initial_liquidity = 0 then .error .InvalidParams
  else
    .ok { status := .Active,
          resolved_outcome := none,
          yes_reserve := p.initial_liquidity,
          no_reserve := p.initial_liquidity,
          yes_supply := 0,
          no_supply := 0,
          total_collateral := p.initial_liquidity,
          vault := p.initial_liquidity,
          fee_bps := p.fee_bps,
          min_bet := p.min_bet,
          max_bet := p.max_bet,
          start_timestamp := p.start_timestamp,
          lock_timestamp := p.lock_timestamp,
          end_timestamp := p.end_timestamp }

/-- CPMM spot prices, embedded from the test helper `cpmmPrice`:
`yesPrice = noPool / (yesPool + noPool)`, `noPrice = yesPool / (yesPool +
noPool)`, with the `0.5/0.5` fallback for an empty pool. -/
def cpmmPrice (yesPool noPool : Nat) : ℚ × ℚ :=
  if yesPool + noPool = 0 then (1/2, 1/2)
  else ((noPool : ℚ) / ((yesPool : ℚ) + (noPool : ℚ)),
        (yesPool : ℚ) / ((yesPool : ℚ) + (noPool : ℚ)))

/-- A trade is a buy (`placeBet`) or a sell (`cancelBet`). -/
inductive Trade
  | buy (side : Side) (amount minSharesOut now : Nat)
  | sell (side : Side) (shares_to_burn : Nat)
deriving DecidableEq, Repr

/-- Dispatch a trade to the corresponding instruction. -/
def applyTrade (m : Market) (pos : UserPosition) :
    Trade → Except Err (Market × UserPosition × Nat × Nat)
  | .buy side amount minSharesOut now => placeBet m pos side amount minSharesOut now
  | .sell side shares_to_burn => cancelBet m pos side shares_to_burn

instance {ε α : Type} [DecidableEq ε] [DecidableEq α] : DecidableEq (Except ε α) := fun
  | .ok a, .ok b =>
    if h : a = b then .isTrue (h ▸ rfl) else .isFalse (fun hc => h (Except.ok.inj hc))
  | .ok _, .error _ => .isFalse (fun hc => Except.noConfusion hc)
  | .error _, .ok _ => .isFalse (fun hc => Except.noConfusion hc)
  | .error e, .error f =>
    if h : e = f then .isTrue (h ▸ rfl) else .isFalse (fun hc => h (Except.error.inj hc))

/-- Concrete platform configuration used by the witness instances below. -/
def cfg0 : PlatformConfig where
  admin := 0
  fee_bps := 250
  dispute_bond := 1000000

/-- Concrete active market (1000/1000 pool, 2.5 percent fee) used by the
witness instances below. -/
def mActive : Market where
  status := .Active
  resolved_outcome := none
  yes_reserve := 1000
  no_reserve := 1000
  yes_supply := 0
  no_supply := 0
  total_collateral := 1000
  vault := 1000
  fee_bps := 250
  min_bet := 0
  max_bet := 0
  start_timestamp := 0
  lock_timestamp := 100
  end_timestamp := 200

/-- The concrete market after a YES bet of 500 into `mActive`. -/
def mAfterBuy : Market :=
  { mActive with yes_reserve := 672, no_reserve := 1487, yes_supply := 328,
                 total_collateral := 1487, vault := 1487 }

/-- The concrete market after additionally cancelling 164 YES shares out of
`mAfterBuy`. -/
def mAfterSell : Market :=
  { mActive with yes_reserve := 836, no_reserve := 1195, yes_supply := 164,
                 total_collateral := 1195, vault := 1195 }

/-- `mActive` resolved to `Yes`. -/
def mResolvedYes : Market :=
  { mActive with status := .Resolved, resolved_outcome := some .Yes }

/-- `mAfterBuy` resolved to `Yes`: 328 outstanding YES tokens against 1487 of
collateral. -/
def mClaimYes : Market :=
  { mAfterBuy with status := .Resolved, resolved_outcome := some .Yes }

/-- A concrete market resolved `Invalid` with both sides held: 500/500
reserves, 1000 of collateral, supplies 10 and 10. -/
def mClaimInvalid : Market :=
  { mActive with status := .Resolved, resolved_outcome := some .Invalid,
                 yes_reserve := 500, no_reserve := 500, yes_supply := 10,
                 no_supply := 10 }

/-- A concrete market resolved `Invalid` whose YES mint supply dwarfs the
collateral, so a holder of a single YES token is paid zero. -/
def mClaimInvalidTiny : Market :=
  { mActive with status := .Resolved, resolved_outcome := some .Invalid,
                 yes_reserve := 500, no_reserve := 500, yes_supply := 1000000,
                 no_supply := 100 }

/-- An open dispute raised by identity 7. -/
def dOpen : DisputeRecord where
  disputer := 7
  status := .Open

/-- `mResolvedYes` with its vault fully drained, ready to be closed. -/
def mClosable : Market :=
  { mResolvedYes with vault := 0 }

/-- Concrete well-formed `createMarket` parameters with liquidity 1000. -/
def p0 : CreateMarketParams where
  start_timestamp := 0
  lock_timestamp := 100
  end_timestamp := 200
  fee_bps := 250
  min_bet := 0
  max_bet := 0
  initial_liquidity := 1000

/-- The shares relevant to a claim under outcome `o`: the winning side's
holding for `Yes`/`No`, both holdings for `Invalid`. -/
def winningShares (o : Outcome) (pos : UserPosition) : Nat :=
  match o with
  | .Yes => pos.yes_shares
  | .No => pos.no_shares
  | .Invalid => pos.yes_shares + pos.no_shares

end SolanaPredict

namespace SolanaPredict

/-- Drawing floor division against a grown denominator stays within the first
factor: `a * b / (b + c) ≤ a`.  This bounds every post-trade reserve read off
the constant-product curve by the pre-trade pool. -/
theorem mul_div_add_le (a b c : Nat) : a * b / (b + c) ≤ a := by
  rcases Nat.eq_zero_or_pos (b + c) with h | h
  · have hb : b = 0 := by omega
    simp [hb]
  · calc a * b / (b + c) ≤ a * (b + c) / (b + c) :=
          Nat.div_le_div_right (Nat.mul_le_mul_left a (Nat.le_add_right b c))
    _ = a := Nat.mul_div_cancel a h

/-- Floor division loses at most a remainder: `k / d * d` is at most `k` and
misses it by less than `d`. -/
theorem div_mul_bounds (k d : Nat) (hd : 0 < d) :
    k / d * d ≤ k ∧ k - k / d * d < d := by
  have h1 := Nat.div_add_mod k d
  have h2 := Nat.mod_lt k hd
  rw [Nat.mul_comm (k / d) d]
  generalize d * (k / d) = t at h1 ⊢
  generalize k % d = r at h1 h2
  omega

/-- C1: for every market in status `Resolved` with an `Open` dispute record,
`settleDispute` called by an identity other than the platform admin fails with
`Unauthorized`.  The admin check is the first guard of the model, before the
dispute record is even read, and an error carries no state, so neither
`DisputeRecord.status` nor `Market.resolved_outcome` is mutated by the failed
call. -/
theorem settleDispute_nonadmin_unauthorized (cfg : PlatformConfig)
    (caller : Nat) (m : Market) (d : DisputeRecord) (newOutcome : Outcome)
    (hres : m.status = .Resolved) (hopen : d.status = .Open)
    (hc : caller ≠ cfg.admin) :
    settleDispute cfg caller m d newOutcome = .error .Unauthorized := by
  simp [settleDispute, hc]

/-- Witness for C1 at a concrete non-admin caller. -/
theorem settleDispute_nonadmin_unauthorized_witness :
    mResolvedYes.status = .Resolved ∧ dOpen.status = .Open ∧
      (1 : Nat) ≠ cfg0.admin ∧
      settleDispute cfg0 1 mResolvedYes dOpen .No = .error .Unauthorized :=
  ⟨rfl, rfl, by decide,
   settleDispute_nonadmin_unauthorized cfg0 1 mResolvedYes dOpen .No rfl rfl
     (by decide)⟩

/-- C2: with an `Open` dispute on a `Resolved` market, the admin's
`settleDispute` with a `newOutcome` differing from the stored
`resolved_outcome` overwrites the outcome and marks the dispute `Upheld`;
with an equal `newOutcome` the dispute is `Rejected` and the outcome is kept;
the market status stays `Resolved` in every successful case. -/
theorem settleDispute_admin_correct (cfg : PlatformConfig) (caller : Nat)
    (m : Market) (d : DisputeRecord) (newOutcome : Outcome)
    (hres : m.status = .Resolved) (hopen : d.status = .Open)
    (hc : caller = cfg.admin) :
    (m.resolved_outcome ≠ some newOutcome →
      settleDispute cfg caller m d newOutcome =
        .ok ({ m with resolved_outcome := some newOutcome },
             { d with status := .Upheld })) ∧
    (m.resolved_outcome = some newOutcome →
      settleDispute cfg caller m d newOutcome =
        .ok (m, { d with status := .Rejected })) ∧
    (∀ m2 d2, settleDispute cfg caller m d newOutcome = .ok (m2, d2) →
      m2.status = .Resolved) := by
  refine ⟨fun h => by simp [settleDispute, hc, hopen, h],
          fun h => by simp [settleDispute, hc, hopen, h], ?_⟩
  intro m2 d2 hok
  by_cases h : m.resolved_outcome = some newOutcome
  · simp [settleDispute, hc, hopen, h] at hok
    rw [← hok.1]
    exact hres
  · simp [settleDispute, hc, hopen, h] at hok
    rw [← hok.1]
    exact hres

/-- Witness for C2: the admin settles the dispute on `mResolvedYes` with a
differing outcome `No`; the outcome is overwritten and the dispute upheld. -/
theorem settleDispute_admin_correct_witness :
    mResolvedYes.resolved_outcome ≠ some .No ∧
      settleDispute cfg0 0 mResolvedYes dOpen .No =
        .ok ({ mResolvedYes with resolved_outcome := some .No },
             { dOpen with status := .Upheld }) :=
  ⟨by decide,
   (settleDispute_admin_correct cfg0 0 mResolvedYes dOpen .No rfl rfl rfl).1
     (by decide)⟩

/-- C3: a valid `placeBet` of `amount` on side `side` mints exactly the shares
of the `quoteBuy` formula — `fee = ceil(amount * feeBps / 10000)`,
`net = amount - fee`, `shares_out = reserve_in - reserve_in * reserve_out /
(reserve_out + net)` with floor division — and afterwards the same-side
reserve has decreased by `shares_out`, the opposite reserve has increased by
`net`, the user's position and the side's mint supply have grown by
`shares_out`. -/
theorem placeBet_follows_quoteBuy (m : Market) (pos : UserPosition)
    (side : Side) (amount minSharesOut now shares_out fee : Nat)
    (hact : m.status = .Active) (hlock : now < m.lock_timestamp)
    (hmin : m.min_bet ≤ amount) (hmax : m.max_bet = 0 ∨ amount ≤ m.max_bet)
    (hq : quoteBuy (sideReserve m side) (otherReserve m side) amount m.fee_bps =
      .ok (shares_out, fee))
    (hslip : minSharesOut ≤ shares_out) :
    fee = feeCeil amount m.fee_bps ∧
    shares_out = sideReserve m side -
      sideReserve m side * otherReserve m side /
        (otherReserve m side + (amount - feeCeil amount m.fee_bps)) ∧
    ∃ m' pos', placeBet m pos side amount minSharesOut now =
        .ok (m', pos', shares_out, fee) ∧
      sideReserve m' side = sideReserve m side - shares_out ∧
      otherReserve m' side = otherReserve m side + (amount - fee) ∧
      sideShares pos' side = sideShares pos side + shares_out ∧
      sideSupply m' side = sideSupply m side + shares_out := by
  have hg1 : ¬m.status ≠ MarketStatus.Active := by simp [hact]
  have hg2 : ¬m.lock_timestamp ≤ now := by omega
  have hg3 : ¬amount < m.min_bet := by omega
  have hg4 : ¬(m.max_bet ≠ 0 ∧ m.max_bet < amount) := by
    rintro ⟨ha, hb⟩
    rcases hmax with h | h
    · exact ha h
    · omega
  simp only [quoteBuy] at hq
  split at hq
  · exact absurd hq (by simp)
  · rename_i hguard
    simp only [Except.ok.injEq, Prod.mk.injEq] at hq
    obtain ⟨hsh, hfee⟩ := hq
    subst hsh
    subst hfee
    refine ⟨rfl, rfl, ?_⟩
    have hns : ¬(sideReserve m side -
        sideReserve m side * otherReserve m side /
          (otherReserve m side + (amount - feeCeil amount m.fee_bps)) <
        minSharesOut) := Nat.not_lt.mpr hslip
    cases side <;>
      simp only [sideReserve, otherReserve] at hguard hns <;>
      simp only [placeBet, quoteBuy, sideReserve, otherReserve, if_neg hg1,
        if_neg hg2, if_neg hg3, if_neg hg4, if_neg hguard, if_neg hns] <;>
      exact ⟨_, _, rfl, rfl, rfl, rfl, rfl⟩

/-- Witness for C3: the 500-unit YES bet into the 1000/1000 pool with a 2.5
percent fee mints 328 shares for a fee of 13. -/
theorem placeBet_follows_quoteBuy_witness :
    quoteBuy (sideReserve mActive .Yes) (otherReserve mActive .Yes) 500
        mActive.fee_bps = .ok (328, 13) ∧
      (13 = feeCeil 500 mActive.fee_bps ∧
        328 = sideReserve mActive .Yes -
          sideReserve mActive .Yes * otherReserve mActive .Yes /
            (otherReserve mActive .Yes + (500 - feeCeil 500 mActive.fee_bps)) ∧
        ∃ m' pos', placeBet mActive ⟨0, 0⟩ .Yes 500 0 0 =
            .ok (m', pos', 328, 13) ∧
          sideReserve m' .Yes = sideReserve mActive .Yes - 328 ∧
          otherReserve m' .Yes = otherReserve mActive .Yes + (500 - 13) ∧
          sideShares pos' .Yes = sideShares (⟨0, 0⟩ : UserPosition) .Yes + 328 ∧
          sideSupply m' .Yes = sideSupply mActive .Yes + 328) :=
  ⟨by decide,
   placeBet_follows_quoteBuy mActive ⟨0, 0⟩ .Yes 500 0 0 328 13 rfl (by decide)
     (by decide) (Or.inl rfl) (by decide) (by decide)⟩

/-- C4: a valid `cancelBet` burning `shares_to_burn` shares refunds exactly
the `quoteSell` formula — `new_side = reserve_side + shares_in`, `new_other =
k / new_side` (floor), `raw = reserve_other - new_other`, `fee = ceil(raw *
feeBps / 10000)`, `refund = raw - fee` — burns the shares from the position
and the mint supply, moves the reserves along the curve and draws `raw` (the
refund for the user plus the fee routed to the treasury) out of the vault. -/
theorem cancelBet_follows_quoteSell (m : Market) (pos : UserPosition)
    (side : Side) (shares_to_burn refund fee : Nat)
    (hact : m.status = .Active)
    (hheld : shares_to_burn ≤ sideShares pos side)
    (hq : quoteSell (sideReserve m side) (otherReserve m side) shares_to_burn
      m.fee_bps = .ok (refund, fee)) :
    fee = feeCeil (otherReserve m side -
        sideReserve m side * otherReserve m side /
          (sideReserve m side + shares_to_burn)) m.fee_bps ∧
    refund = (otherReserve m side -
        sideReserve m side * otherReserve m side /
          (sideReserve m side + shares_to_burn)) - fee ∧
    ∃ m' pos', cancelBet m pos side shares_to_burn =
        .ok (m', pos', refund, fee) ∧
      sideShares pos' side = sideShares pos side - shares_to_burn ∧
      sideSupply m' side = sideSupply m side - shares_to_burn ∧
      sideReserve m' side = sideReserve m side + shares_to_burn ∧
      otherReserve m' side = sideReserve m side * otherReserve m side /
        (sideReserve m side + shares_to_burn) ∧
      m'.vault = m.vault - (otherReserve m side -
        sideReserve m side * otherReserve m side /
          (sideReserve m side + shares_to_burn)) ∧
      m'.total_collateral = m.total_collateral - (otherReserve m side -
        sideReserve m side * otherReserve m side /
          (sideReserve m side + shares_to_burn)) := by
  have hg1 : ¬m.status ≠ MarketStatus.Active := by simp [hact]
  have hg2 : ¬sideShares pos side < shares_to_burn := Nat.not_lt.mpr hheld
  simp only [quoteSell] at hq
  split at hq
  · exact absurd hq (by simp)
  · rename_i hguard
    simp only [Except.ok.injEq, Prod.mk.injEq] at hq
    obtain ⟨hrefund, hfee⟩ := hq
    subst hfee
    subst hrefund
    refine ⟨rfl, rfl, ?_⟩
    cases side <;>
      simp only [sideReserve, otherReserve, sideShares] at hguard hg2 <;>
      simp only [cancelBet, sideReserve, otherReserve, sideShares, if_neg hg1,
        if_neg hg2, if_neg hguard] <;>
      exact ⟨_, _, rfl, rfl, rfl, rfl, rfl, rfl, rfl⟩

/-- Witness for C4: burning 164 YES shares against the 672/1487 pool refunds
284 with a fee of 8. -/
theorem cancelBet_follows_quoteSell_witness :
    (164 : Nat) ≤ sideShares ⟨328, 0⟩ .Yes ∧
      quoteSell (sideReserve mAfterBuy .Yes) (otherReserve mAfterBuy .Yes) 164
        mAfterBuy.fee_bps = .ok (284, 8) ∧
      (8 = feeCeil (otherReserve mAfterBuy .Yes -
          sideReserve mAfterBuy .Yes * otherReserve mAfterBuy .Yes /
            (sideReserve mAfterBuy .Yes + 164)) mAfterBuy.fee_bps ∧
        284 = (otherReserve mAfterBuy .Yes -
          sideReserve mAfterBuy .Yes * otherReserve mAfterBuy .Yes /
            (sideReserve mAfterBuy .Yes + 164)) - 8 ∧
        ∃ m' pos', cancelBet mAfterBuy ⟨328, 0⟩ .Yes 164 =
            .ok (m', pos', 284, 8) ∧
          sideShares pos' .Yes = sideShares (⟨328, 0⟩ : UserPosition) .Yes - 164 ∧
          sideSupply m' .Yes = sideSupply mAfterBuy .Yes - 164 ∧
          sideReserve m' .Yes = sideReserve mAfterBuy .Yes + 164 ∧
          otherReserve m' .Yes = sideReserve mAfterBuy .Yes *
            otherReserve mAfterBuy .Yes / (sideReserve mAfterBuy .Yes + 164) ∧
          m'.vault = mAfterBuy.vault - (otherReserve mAfterBuy .Yes -
            sideReserve mAfterBuy .Yes * otherReserve mAfterBuy .Yes /
              (sideReserve mAfterBuy .Yes + 164)) ∧
          m'.total_collateral = mAfterBuy.total_collateral -
            (otherReserve mAfterBuy .Yes -
              sideReserve mAfterBuy .Yes * otherReserve mAfterBuy .Yes /
                (sideReserve mAfterBuy .Yes + 164))) :=
  ⟨by decide, by decide,
   cancelBet_follows_quoteSell mAfterBuy ⟨328, 0⟩ .Yes 164 284 8 rfl (by decide)
     (by decide)⟩

/-- Every successful trade pushes one reserve to some divisor `d` and reads
the other off the curve as `k / d`, so the new product is `k / d * d` with
`d` positive and at most the new reserve sum. -/
theorem applyTrade_reserves_shape (m : Market) (pos : UserPosition) (t : Trade)
    (m' : Market) (pos' : UserPosition) (q f : Nat)
    (h : applyTrade m pos t = .ok (m', pos', q, f)) :
    ∃ d, 0 < d ∧ d ≤ m'.yes_reserve + m'.no_reserve ∧
      m'.yes_reserve * m'.no_reserve =
        m.yes_reserve * m.no_reserve / d * d := by
  cases t with
  | buy side amount minSharesOut now =>
    cases side with
    | Yes =>
      simp only [applyTrade, placeBet, quoteBuy, sideReserve, otherReserve] at h
      split at h
      · exact absurd h (by simp)
      split at h
      · exact absurd h (by simp)
      split at h
      · exact absurd h (by simp)
      split at h
      · exact absurd h (by simp)
      split at h
      · exact absurd h (by simp)
      rename_i hguard
      split at h
      · exact absurd h (by simp)
      split at hguard
      · exact absurd hguard (by simp)
      rename_i hg2
      simp only [Except.ok.injEq, Prod.mk.injEq] at hguard
      obtain ⟨hsh, hfee⟩ := hguard
      subst hsh
      subst hfee
      simp only [Except.ok.injEq, Prod.mk.injEq] at h
      obtain ⟨hm, -, -, -⟩ := h
      subst hm
      refine ⟨m.no_reserve + (amount - feeCeil amount m.fee_bps),
        by omega, ?_, ?_⟩
      · simp only
        omega
      · simp only
        rw [Nat.sub_sub_self
          (mul_div_add_le m.yes_reserve m.no_reserve
            (amount - feeCeil amount m.fee_bps))]
    | No =>
      simp only [applyTrade, placeBet, quoteBuy, sideReserve, otherReserve] at h
      split at h
      · exact absurd h (by simp)
      split at h
      · exact absurd h (by simp)
      split at h
      · exact absurd h (by simp)
      split at h
      · exact absurd h (by simp)
      split at h
      · exact absurd h (by simp)
      rename_i hguard
      split at h
      · exact absurd h (by simp)
      split at hguard
      · exact absurd hguard (by simp)
      rename_i hg2
      simp only [Except.ok.injEq, Prod.mk.injEq] at hguard
      obtain ⟨hsh, hfee⟩ := hguard
      subst hsh
      subst hfee
      simp only [Except.ok.injEq, Prod.mk.injEq] at h
      obtain ⟨hm, -, -, -⟩ := h
      subst hm
      refine ⟨m.yes_reserve + (amount - feeCeil amount m.fee_bps),
        by omega, ?_, ?_⟩
      · simp only
        omega
      · simp only
        rw [Nat.sub_sub_self
          (mul_div_add_le m.no_reserve m.yes_reserve
            (amount - feeCeil amount m.fee_bps))]
        rw [Nat.mul_comm m.no_reserve m.yes_reserve]
        exact Nat.mul_comm _ _
  | sell side shares_to_burn =>
    cases side with
    | Yes =>
      simp only [applyTrade, cancelBet, sideReserve, otherReserve, sideShares] at h
      split at h
      · exact absurd h (by simp)
      split at h
      · exact absurd h (by simp)
      split at h
      · exact absurd h (by simp)
      rename_i hg2
      simp only [Except.ok.injEq, Prod.mk.injEq] at h
      obtain ⟨hm, -, -, -⟩ := h
      subst hm
      refine ⟨m.yes_reserve + shares_to_burn, by omega, ?_, ?_⟩
      · simp only
        exact Nat.le_add_right _ _
      · simp only
        exact Nat.mul_comm _ _
    | No =>
      simp only [applyTrade, cancelBet, sideReserve, otherReserve, sideShares] at h
      split at h
      · exact absurd h (by simp)
      split at h
      · exact absurd h (by simp)
      split at h
      · exact absurd h (by simp)
      rename_i hg2
      simp only [Except.ok.injEq, Prod.mk.injEq] at h
      obtain ⟨hm, -, -, -⟩ := h
      subst hm
      refine ⟨m.no_reserve + shares_to_burn, by omega, ?_, ?_⟩
      · simp only
        exact Nat.le_add_left _ _
      · simp only
        rw [Nat.mul_comm m.no_reserve m.yes_reserve]

/-- C5 counterexample: the 500-unit YES buy into the concrete 1000/1000 pool
is a valid trade after which the reserve product has strictly decreased, from
1000000 to 672 * 1487 = 999264, refuting the claimed monotonic non-decrease
of `yes_reserve * no_reserve`. -/
theorem trade_k_monotone_counterexample :
    placeBet mActive ⟨0, 0⟩ .Yes 500 0 0 = .ok (mAfterBuy, ⟨328, 0⟩, 328, 13) ∧
      mAfterBuy.yes_reserve * mAfterBuy.no_reserve <
        mActive.yes_reserve * mActive.no_reserve := by
  decide

/-- C5 (amended): after every valid buy or sell the reserve product never
increases, its decrease is a floor-rounding remainder smaller than the new
reserve sum, and the CPMM prices of the two sides sum to exactly 1. -/
theorem applyTrade_k_drift (m : Market) (pos : UserPosition) (t : Trade)
    (m' : Market) (pos' : UserPosition) (q f : Nat)
    (h : applyTrade m pos t = .ok (m', pos', q, f)) :
    m'.yes_reserve * m'.no_reserve ≤ m.yes_reserve * m.no_reserve ∧
    m.yes_reserve * m.no_reserve - m'.yes_reserve * m'.no_reserve <
      m'.yes_reserve + m'.no_reserve ∧
    (cpmmPrice m'.yes_reserve m'.no_reserve).1 +
      (cpmmPrice m'.yes_reserve m'.no_reserve).2 = 1 := by
  obtain ⟨d, hd, hdle, hk⟩ := applyTrade_reserves_shape m pos t m' pos' q f h
  obtain ⟨h1, h2⟩ := div_mul_bounds (m.yes_reserve * m.no_reserve) d hd
  refine ⟨by rw [hk]; exact h1, by rw [hk]; omega, ?_⟩
  have hsum : m'.yes_reserve + m'.no_reserve ≠ 0 := by omega
  have hsumq : ((m'.yes_reserve : ℚ) + (m'.no_reserve : ℚ)) ≠ 0 := by
    exact_mod_cast hsum
  simp only [cpmmPrice, if_neg hsum]
  rw [div_add_div_same, add_comm ((m'.no_reserve : ℚ)) ((m'.yes_reserve : ℚ))]
  exact div_self hsumq

/-- Witness for C5 (amended) at the concrete sell of 164 YES shares. -/
theorem applyTrade_k_drift_witness :
    applyTrade mAfterBuy ⟨328, 0⟩ (.sell .Yes 164) =
        .ok (mAfterSell, ⟨164, 0⟩, 284, 8) ∧
      (mAfterSell.yes_reserve * mAfterSell.no_reserve ≤
          mAfterBuy.yes_reserve * mAfterBuy.no_reserve ∧
        mAfterBuy.yes_reserve * mAfterBuy.no_reserve -
            mAfterSell.yes_reserve * mAfterSell.no_reserve <
          mAfterSell.yes_reserve + mAfterSell.no_reserve ∧
        (cpmmPrice mAfterSell.yes_reserve mAfterSell.no_reserve).1 +
          (cpmmPrice mAfterSell.yes_reserve mAfterSell.no_reserve).2 = 1) :=
  ⟨by decide,
   applyTrade_k_drift mAfterBuy ⟨328, 0⟩ (.sell .Yes 164) mAfterSell ⟨164, 0⟩
     284 8 (by decide)⟩

/-- C6: on a market resolved `Yes`, `claimPayout` pays the caller
`floor(shares_held * total_collateral / yes_token_supply)` with the
outstanding YES mint supply (not the pool reserve) as denominator, burns the
user's YES shares, and decrements the vault and `total_collateral` by the
payout through a checked subtraction that fails with `InsufficientVault`
rather than underflowing. -/
theorem claimPayout_yes_proportional (m : Market) (pos : UserPosition)
    (hres : m.status = .Resolved) (ho : m.resolved_outcome = some .Yes) :
    (m.vault < pos.yes_shares * m.total_collateral / m.yes_supply ∨
        m.total_collateral < pos.yes_shares * m.total_collateral / m.yes_supply →
      claimPayout m pos = .error .InsufficientVault) ∧
    (¬(m.vault < pos.yes_shares * m.total_collateral / m.yes_supply ∨
        m.total_collateral < pos.yes_shares * m.total_collateral / m.yes_supply) →
      claimPayout m pos =
        .ok ({ m with
                vault := m.vault -
                  pos.yes_shares * m.total_collateral / m.yes_supply,
                total_collateral := m.total_collateral -
                  pos.yes_shares * m.total_collateral / m.yes_supply,
                yes_supply := m.yes_supply - pos.yes_shares },
             { pos with yes_shares := 0 },
             pos.yes_shares * m.total_collateral / m.yes_supply)) := by
  constructor <;> intro hcase <;> simp [claimPayout, hres, ho, hcase]

/-- Witness for C6: the holder of all 328 YES tokens of `mClaimYes` claims
the full 1487 of collateral, and the vault and supply drop to zero. -/
theorem claimPayout_yes_proportional_witness :
    ¬(mClaimYes.vault <
        328 * mClaimYes.total_collateral / mClaimYes.yes_supply ∨
      mClaimYes.total_collateral <
        328 * mClaimYes.total_collateral / mClaimYes.yes_supply) ∧
      claimPayout mClaimYes ⟨328, 0⟩ =
        .ok ({ mClaimYes with
                vault := mClaimYes.vault -
                  328 * mClaimYes.total_collateral / mClaimYes.yes_supply,
                total_collateral := mClaimYes.total_collateral -
                  328 * mClaimYes.total_collateral / mClaimYes.yes_supply,
                yes_supply := mClaimYes.yes_supply - 328 },
             { yes_shares := 0, no_shares := 0 },
             328 * mClaimYes.total_collateral / mClaimYes.yes_supply) :=
  ⟨by decide,
   (claimPayout_yes_proportional mClaimYes ⟨328, 0⟩ rfl rfl).2 (by decide)⟩

/-- A holder's payout from one side's reserve-fraction pool never exceeds the
collateral: `s * (t * r / (r + r2)) / sup ≤ t` when `s ≤ sup` and `0 < sup`. -/
theorem side_payout_le (s sup t r r2 : Nat) (hs : s ≤ sup) (h0 : 0 < sup) :
    s * (t * r / (r + r2)) / sup ≤ t := by
  have h1 : t * r / (r + r2) ≤ t := mul_div_add_le t r r2
  have h2 : s * (t * r / (r + r2)) / sup ≤ sup * (t * r / (r + r2)) / sup :=
    Nat.div_le_div_right (Nat.mul_le_mul_right _ hs)
  rw [Nat.mul_div_cancel_left _ h0] at h2
  exact le_trans h2 h1

/-- On an `Invalid`-resolved market a claim by a pure YES holder succeeds and
pays the YES reserve-fraction formula, provided the payout fits into the
collateral (vault mirroring assumed). -/
theorem claimPayout_invalid_yes_only (m : Market) (s : Nat)
    (hres : m.status = .Resolved) (ho : m.resolved_outcome = some .Invalid)
    (hv : m.vault = m.total_collateral)
    (hle : s * (m.total_collateral * m.yes_reserve /
      (m.yes_reserve + m.no_reserve)) / m.yes_supply ≤ m.total_collateral) :
    claimPayout m ⟨s, 0⟩ =
      .ok ({ m with
              vault := m.vault - s * (m.total_collateral * m.yes_reserve /
                (m.yes_reserve + m.no_reserve)) / m.yes_supply,
              total_collateral := m.total_collateral -
                s * (m.total_collateral * m.yes_reserve /
                  (m.yes_reserve + m.no_reserve)) / m.yes_supply,
              yes_supply := m.yes_supply - s },
           ⟨0, 0⟩,
           s * (m.total_collateral * m.yes_reserve /
             (m.yes_reserve + m.no_reserve)) / m.yes_supply) := by
  have hnl : ¬m.total_collateral < s * (m.total_collateral * m.yes_reserve /
      (m.yes_reserve + m.no_reserve)) / m.yes_supply := Nat.not_lt.mpr hle
  simp [claimPayout, hres, ho, hv, hnl]

/-- On an `Invalid`-resolved market a claim by a pure NO holder succeeds and
pays the NO reserve-fraction formula, provided the payout fits into the
collateral (vault mirroring assumed). -/
theorem claimPayout_invalid_no_only (m : Market) (s : Nat)
    (hres : m.status = .Resolved) (ho : m.resolved_outcome = some .Invalid)
    (hv : m.vault = m.total_collateral)
    (hle : s * (m.total_collateral * m.no_reserve /
      (m.yes_reserve + m.no_reserve)) / m.no_supply ≤ m.total_collateral) :
    claimPayout m ⟨0, s⟩ =
      .ok ({ m with
              vault := m.vault - s * (m.total_collateral * m.no_reserve /
                (m.yes_reserve + m.no_reserve)) / m.no_supply,
              total_collateral := m.total_collateral -
                s * (m.total_collateral * m.no_reserve /
                  (m.yes_reserve + m.no_reserve)) / m.no_supply,
              no_supply := m.no_supply - s },
           ⟨0, 0⟩,
           s * (m.total_collateral * m.no_reserve /
             (m.yes_reserve + m.no_reserve)) / m.no_supply) := by
  have hnl : ¬m.total_collateral < s * (m.total_collateral * m.no_reserve /
      (m.yes_reserve + m.no_reserve)) / m.no_supply := Nat.not_lt.mpr hle
  simp [claimPayout, hres, ho, hv, hnl]

/-- C7 counterexample: on `mClaimInvalidTiny`, resolved `Invalid` with a YES
holder (1 token of a million) and NO tokens outstanding, the YES holder's
claim succeeds but pays exactly zero, refuting the claimed strict positivity
of both payouts. -/
theorem claimPayout_invalid_positive_counterexample :
    (0 : Nat) < 1 ∧ 0 < mClaimInvalidTiny.no_supply ∧
      claimPayout mClaimInvalidTiny ⟨1, 0⟩ =
        .ok ({ mClaimInvalidTiny with yes_supply := 999999 }, ⟨0, 0⟩, 0) := by
  decide

/-- C7 (amended): on an `Invalid`-resolved market whose vault mirrors the
collateral, with one YES holder and one NO holder, both claims succeed in
sequence; each payout is the floor share of its side's reserve-fraction pool
computed from the collateral current at that call (possibly zero for a tiny
holder), and the two payouts sum to at most the collateral at resolution. -/
theorem claimPayout_invalid_both_claims (m : Market) (sA sB : Nat)
    (hres : m.status = .Resolved) (ho : m.resolved_outcome = some .Invalid)
    (hv : m.vault = m.total_collateral)
    (hA : 0 < sA) (hB : 0 < sB)
    (hAs : sA ≤ m.yes_supply) (hBs : sB ≤ m.no_supply) :
    claimPayout m ⟨sA, 0⟩ =
      .ok ({ m with
              vault := m.vault - sA * (m.total_collateral * m.yes_reserve /
                (m.yes_reserve + m.no_reserve)) / m.yes_supply,
              total_collateral := m.total_collateral -
                sA * (m.total_collateral * m.yes_reserve /
                  (m.yes_reserve + m.no_reserve)) / m.yes_supply,
              yes_supply := m.yes_supply - sA },
           ⟨0, 0⟩,
           sA * (m.total_collateral * m.yes_reserve /
             (m.yes_reserve + m.no_reserve)) / m.yes_supply) ∧
    (∃ m2, claimPayout
        { m with
            vault := m.vault - sA * (m.total_collateral * m.yes_reserve /
              (m.yes_reserve + m.no_reserve)) / m.yes_supply,
            total_collateral := m.total_collateral -
              sA * (m.total_collateral * m.yes_reserve /
                (m.yes_reserve + m.no_reserve)) / m.yes_supply,
            yes_supply := m.yes_supply - sA } ⟨0, sB⟩ =
      .ok (m2, ⟨0, 0⟩,
           sB * ((m.total_collateral -
               sA * (m.total_collateral * m.yes_reserve /
                 (m.yes_reserve + m.no_reserve)) / m.yes_supply) *
             m.no_reserve / (m.yes_reserve + m.no_reserve)) / m.no_supply)) ∧
    sA * (m.total_collateral * m.yes_reserve /
        (m.yes_reserve + m.no_reserve)) / m.yes_supply +
      sB * ((m.total_collateral -
          sA * (m.total_collateral * m.yes_reserve /
            (m.yes_reserve + m.no_reserve)) / m.yes_supply) *
        m.no_reserve / (m.yes_reserve + m.no_reserve)) / m.no_supply ≤
      m.total_collateral := by
  have hsupY : 0 < m.yes_supply := lt_of_lt_of_le hA hAs
  have hsupN : 0 < m.no_supply := lt_of_lt_of_le hB hBs
  have hleA : sA * (m.total_collateral * m.yes_reserve /
      (m.yes_reserve + m.no_reserve)) / m.yes_supply ≤ m.total_collateral :=
    side_payout_le sA m.yes_supply m.total_collateral m.yes_reserve
      m.no_reserve hAs hsupY
  have hleB : sB * ((m.total_collateral -
      sA * (m.total_collateral * m.yes_reserve /
        (m.yes_reserve + m.no_reserve)) / m.yes_supply) * m.no_reserve /
      (m.yes_reserve + m.no_reserve)) / m.no_supply ≤
      m.total_collateral - sA * (m.total_collateral * m.yes_reserve /
        (m.yes_reserve + m.no_reserve)) / m.yes_supply := by
    have h := side_payout_le sB m.no_supply
      (m.total_collateral - sA * (m.total_collateral * m.yes_reserve /
        (m.yes_reserve + m.no_reserve)) / m.yes_supply)
      m.no_reserve m.yes_reserve hBs hsupN
    rwa [Nat.add_comm m.no_reserve m.yes_reserve] at h
  refine ⟨claimPayout_invalid_yes_only m sA hres ho hv hleA, ?_, ?_⟩
  · exact ⟨_, claimPayout_invalid_no_only
      { m with
          vault := m.vault - sA * (m.total_collateral * m.yes_reserve /
            (m.yes_reserve + m.no_reserve)) / m.yes_supply,
          total_collateral := m.total_collateral -
            sA * (m.total_collateral * m.yes_reserve /
              (m.yes_reserve + m.no_reserve)) / m.yes_supply,
          yes_supply := m.yes_supply - sA } sB hres ho
      (by
        show m.vault - _ = m.total_collateral - _
        rw [hv]) hleB⟩
  · calc sA * (m.total_collateral * m.yes_reserve /
          (m.yes_reserve + m.no_reserve)) / m.yes_supply +
        sB * ((m.total_collateral -
            sA * (m.total_collateral * m.yes_reserve /
              (m.yes_reserve + m.no_reserve)) / m.yes_supply) *
          m.no_reserve / (m.yes_reserve + m.no_reserve)) / m.no_supply ≤
        sA * (m.total_collateral * m.yes_reserve /
          (m.yes_reserve + m.no_reserve)) / m.yes_supply +
        (m.total_collateral - sA * (m.total_collateral * m.yes_reserve /
          (m.yes_reserve + m.no_reserve)) / m.yes_supply) :=
      Nat.add_le_add_left hleB _
    _ = m.total_collateral := Nat.add_sub_cancel' hleA

/-- Witness for C7 (amended): on `mClaimInvalid` (1000 collateral, 500/500
reserves, supplies 10/10) a 5-token YES holder claims 250, then a 5-token NO
holder claims 187 of the remaining 750; 250 + 187 stays within 1000. -/
theorem claimPayout_invalid_both_claims_witness :
    claimPayout mClaimInvalid ⟨5, 0⟩ =
      .ok ({ mClaimInvalid with
              vault := 750,
              total_collateral := 750,
              yes_supply := 5 }, ⟨0, 0⟩, 250) ∧
    (∃ m2, claimPayout
        { mClaimInvalid with
            vault := 750,
            total_collateral := 750,
            yes_supply := 5 } ⟨0, 5⟩ =
      .ok (m2, ⟨0, 0⟩, 187)) ∧
    (250 : Nat) + 187 ≤ 1000 :=
  claimPayout_invalid_both_claims mClaimInvalid 5 5 rfl rfl rfl (by decide)
    (by decide) (by decide) (by decide)

/-- C8: with the admin calling, `closeMarket` on an `Active` market fails with
`MarketNotCloseable`; on a `Resolved` or `Cancelled` market with a nonzero
vault it fails with `OutstandingPositions`; and it succeeds exactly when the
status is `Resolved` or `Cancelled` and the vault balance is exactly zero.
Errors return no state, so a failed call leaves the market unchanged. -/
theorem closeMarket_guards (cfg : PlatformConfig) (caller : Nat) (m : Market)
    (hadmin : caller = cfg.admin) :
    (m.status = .Active →
      closeMarket cfg caller m = .error .MarketNotCloseable) ∧
    (m.status = .Resolved ∨ m.status = .Cancelled → m.vault ≠ 0 →
      closeMarket cfg caller m = .error .OutstandingPositions) ∧
    (closeMarket cfg caller m = .ok () ↔
      (m.status = .Resolved ∨ m.status = .Cancelled) ∧ m.vault = 0) := by
  refine ⟨?_, ?_, ?_⟩
  · intro h
    simp [closeMarket, hadmin, h]
  · intro h hv
    rcases h with h | h <;> simp [closeMarket, hadmin, h, hv]
  · constructor
    · intro h
      by_cases hs : m.status = .Resolved ∨ m.status = .Cancelled
      · by_cases hv : m.vault = 0
        · exact ⟨hs, hv⟩
        · rcases hs with hs | hs <;>
            simp [closeMarket, hadmin, hs, hv] at h
      · simp [closeMarket, hadmin, hs] at h
    · rintro ⟨hs, hv⟩
      rcases hs with hs | hs <;> simp [closeMarket, hadmin, hs, hv]

/-- Witness for C8 at three concrete markets: an active one, a resolved one
with a funded vault, and a resolved one with an empty vault. -/
theorem closeMarket_guards_witness :
    closeMarket cfg0 0 mActive = .error .MarketNotCloseable ∧
      closeMarket cfg0 0 mResolvedYes = .error .OutstandingPositions ∧
      closeMarket cfg0 0 mClosable = .ok () :=
  ⟨(closeMarket_guards cfg0 0 mActive rfl).1 rfl,
   (closeMarket_guards cfg0 0 mResolvedYes rfl).2.1 (Or.inl rfl) (by decide),
   (closeMarket_guards cfg0 0 mClosable rfl).2.2.mpr ⟨Or.inl rfl, rfl⟩⟩

/-- C9: `createMarket` with valid timestamps and positive initial liquidity
`L` yields an `Active` market with both reserves, the vault balance and
`total_collateral` all equal to `L`, and both CPMM prices exactly one half. -/
theorem createMarket_seeds_pools (p : CreateMarketParams)
    (h1 : p.start_timestamp < p.lock_timestamp)
    (h2 : p.lock_timestamp < p.end_timestamp)
    (h3 : 0 < p.initial_liquidity) :
    ∃ m, createMarket p = .ok m ∧ m.status = .Active ∧
      m.yes_reserve = p.initial_liquidity ∧
      m.no_reserve = p.initial_liquidity ∧
      m.vault = p.initial_liquidity ∧
      m.total_collateral = p.initial_liquidity ∧
      cpmmPrice m.yes_reserve m.no_reserve = (1/2, 1/2) := by
  have h3z : p.initial_liquidity ≠ 0 := by omega
  have hco : createMarket p =
      .ok { status := .Active,
            resolved_outcome := none,
            yes_reserve := p.initial_liquidity,
            no_reserve := p.initial_liquidity,
            yes_supply := 0,
            no_supply := 0,
            total_collateral := p.initial_liquidity,
            vault := p.initial_liquidity,
            fee_bps := p.fee_bps,
            min_bet := p.min_bet,
            max_bet := p.max_bet,
            start_timestamp := p.start_timestamp,
            lock_timestamp := p.lock_timestamp,
            end_timestamp := p.end_timestamp } := by
    simp [createMarket, h1, h2, h3z]
  refine ⟨_, hco, rfl, rfl, rfl, rfl, rfl, ?_⟩
  have hsum : p.initial_liquidity + p.initial_liquidity ≠ 0 := by omega
  have hL : ((p.initial_liquidity : ℚ)) ≠ 0 := Nat.cast_ne_zero.mpr h3z
  simp only [cpmmPrice, if_neg hsum, Prod.mk.injEq]
  constructor <;>
    · rw [div_eq_iff (by
        intro hc
        apply hL
        have : ((p.initial_liquidity : ℚ)) + p.initial_liquidity = 0 := hc
        linarith)]
      ring

/-- Witness for C9 at the concrete parameters `p0` (liquidity 1000). -/
theorem createMarket_seeds_pools_witness :
    p0.start_timestamp < p0.lock_timestamp ∧
      p0.lock_timestamp < p0.end_timestamp ∧ 0 < p0.initial_liquidity ∧
      ∃ m, createMarket p0 = .ok m ∧ m.status = .Active ∧
        m.yes_reserve = p0.initial_liquidity ∧
        m.no_reserve = p0.initial_liquidity ∧
        m.vault = p0.initial_liquidity ∧
        m.total_collateral = p0.initial_liquidity ∧
        cpmmPrice m.yes_reserve m.no_reserve = (1/2, 1/2) :=
  ⟨by decide, by decide, by decide,
   createMarket_seeds_pools p0 (by decide) (by decide) (by decide)⟩

/-- A claim by a holder with zero relevant shares is a no-op success paying
zero: the state is returned unchanged. -/
theorem claimPayout_zero_winning (m : Market) (pos : UserPosition)
    (o : Outcome) (hres : m.status = .Resolved)
    (ho : m.resolved_outcome = some o) (hz : winningShares o pos = 0) :
    claimPayout m pos = .ok (m, pos, 0) := by
  obtain ⟨py, pn⟩ := pos
  obtain ⟨st, ro, yr, nr, ys, ns, tc, v, fb, mb, xb, t0, t1, t2⟩ := m
  simp only at hres ho
  subst hres
  subst ho
  cases o with
  | Yes =>
    simp only [winningShares] at hz
    subst hz
    simp [claimPayout]
  | No =>
    simp only [winningShares] at hz
    subst hz
    simp [claimPayout]
  | Invalid =>
    simp only [winningShares] at hz
    have hy : py = 0 := by omega
    have hn : pn = 0 := by omega
    subst hy
    subst hn
    simp [claimPayout]

/-- C10: on a `Resolved` market, a holder of zero winning-side shares (or,
for `Invalid`, zero shares on both sides) gets a no-op success with zero
payout, and every successful claim zeroes the holder's relevant shares, so an
immediately repeated claim also succeeds with zero payout instead of
erroring. -/
theorem claimPayout_idempotent_zero (m : Market) (pos : UserPosition)
    (o : Outcome) (hres : m.status = .Resolved)
    (ho : m.resolved_outcome = some o) :
    (winningShares o pos = 0 → claimPayout m pos = .ok (m, pos, 0)) ∧
    (∀ m1 p1 pay, claimPayout m pos = .ok (m1, p1, pay) →
      winningShares o p1 = 0 ∧ claimPayout m1 p1 = .ok (m1, p1, 0)) := by
  refine ⟨claimPayout_zero_winning m pos o hres ho, ?_⟩
  intro m1 p1 pay h
  cases o with
  | Yes =>
    simp only [claimPayout, hres, ho] at h
    rw [if_neg (by simp)] at h
    split at h
    · exact absurd h (by simp)
    · simp only [Except.ok.injEq, Prod.mk.injEq] at h
      obtain ⟨hm1, hp1, -⟩ := h
      subst hm1
      subst hp1
      exact ⟨rfl, claimPayout_zero_winning _ _ .Yes rfl rfl rfl⟩
  | No =>
    simp only [claimPayout, hres, ho] at h
    rw [if_neg (by simp)] at h
    split at h
    · exact absurd h (by simp)
    · simp only [Except.ok.injEq, Prod.mk.injEq] at h
      obtain ⟨hm1, hp1, -⟩ := h
      subst hm1
      subst hp1
      exact ⟨rfl, claimPayout_zero_winning _ _ .No rfl rfl rfl⟩
  | Invalid =>
    simp only [claimPayout, hres, ho] at h
    rw [if_neg (by simp)] at h
    split at h
    · exact absurd h (by simp)
    · simp only [Except.ok.injEq, Prod.mk.injEq] at h
      obtain ⟨hm1, hp1, -⟩ := h
      subst hm1
      subst hp1
      exact ⟨rfl, claimPayout_zero_winning _ _ .Invalid rfl rfl rfl⟩

/-- Witness for C10: on `mClaimYes` a pure NO holder claims zero as a no-op,
and after the 328-share YES holder's successful claim the repeated claim
observes zero shares and pays zero. -/
theorem claimPayout_idempotent_zero_witness :
    claimPayout mClaimYes ⟨0, 7⟩ = .ok (mClaimYes, ⟨0, 7⟩, 0) ∧
      (winningShares .Yes ⟨0, 0⟩ = 0 ∧
        claimPayout
            { mClaimYes with vault := 0, total_collateral := 0,
                             yes_supply := 0 } ⟨0, 0⟩ =
          .ok ({ mClaimYes with vault := 0, total_collateral := 0,
                                yes_supply := 0 }, ⟨0, 0⟩, 0)) :=
  ⟨(claimPayout_idempotent_zero mClaimYes ⟨0, 7⟩ .Yes rfl rfl).1 rfl,
   (claimPayout_idempotent_zero mClaimYes ⟨328, 0⟩ .Yes rfl rfl).2
     { mClaimYes with vault := 0, total_collateral := 0, yes_supply := 0 }
     ⟨0, 0⟩ 1487 (by decide)⟩

end SolanaPredict
